import Mathlib

/-!
Shallow embedding of `src/runtime/runtime_unix.go` (TinyGo's POSIX runtime
layer): heap region management, signal capture and delivery, the sleep/wait
primitives and the time source adapter.  Machine integers are modelled as
`Nat` with explicit reductions modulo `2 ^ 32` (for `uint32`) and `2 ^ w`
(for `uintptr` of pointer width `w`) where the Go code can wrap.
-/

namespace TinyGoUnix

/-- Go expression `uint32(1) << uint32(s)`: a shift by 32 or more yields 0
after truncation to 32 bits. -/
def shlOne32 (s : Nat) : Nat := (1 <<< s) % 2 ^ 32

/-- Go expression `a &^ b` on `uint32` operands: `a AND (NOT b)` where the
complement is taken over 32 bits. -/
def andNot32 (a b : Nat) : Nat := a &&& ((2 ^ 32 - 1) ^^^ (b % 2 ^ 32))

/-- Go expression `a &^ b` on `uintptr` operands of pointer width `w`. -/
def andNotW (w a b : Nat) : Nat := a &&& ((2 ^ w - 1) ^^^ (b % 2 ^ w))

/-- Helper for `math/bits.TrailingZeros32`: count trailing zero bits by
repeated halving, with enough fuel for a 32-bit value. -/
def trailingZerosAux : Nat → Nat → Nat
  | 0, _ => 0
  | f + 1, n => if n % 2 = 1 then 0 else trailingZerosAux f (n / 2) + 1

/-- `math/bits.TrailingZeros32` (the result for input 0 is 32, as in Go). -/
def trailingZeros32 (n : Nat) : Nat := trailingZerosAux 32 n

/-- Capacity of `signalChan` (`make(chan uint32, 1)` in `init`). -/
def signalChanCap : Nat := 1

/-- Process-global signal state of the runtime: the pending bitmask
`receivedSignals`, the buffered channel `signalChan`, the `hasSignals` flag
and the `activeSignals` interest mask.  The field `kernelRouted` is
modelled from the spec: the C helpers `tinygo_signal_enable`,
`tinygo_signal_ignore` and `tinygo_signal_disable` are extern declarations
whose bodies are not part of this repository; per the spec they ask the
kernel to route (resp. stop routing) occurrences of a signal to the
subsystem's handler, recorded here as a bitmask. -/
structure SignalState where
  receivedSignals : Nat
  signalChan : List Nat
  hasSignals : Bool
  activeSignals : Nat
  kernelRouted : Nat
deriving DecidableEq

/-- The state after the package-level variable declarations and `init`:
nothing pending, empty channel, no signals registered. -/
def initSignalState : SignalState :=
  { receivedSignals := 0
    signalChan := []
    hasSignals := false
    activeSignals := 0
    kernelRouted := 0 }

/-- `tinygo_signal_handler`: atomically OR the bit for the delivered signal
number into `receivedSignals` (a CAS retry loop in the source; in the


sequential model the CAS succeeds at once). -/
def tinygo_signal_handler (s : Nat) (st : SignalState) : SignalState :=
  { st with receivedSignals := st.receivedSignals ||| shlOne32 s }

/-- The loop body of `checkSignals`.  Each iteration loads
`receivedSignals` (`atomic.LoadUint32`; the reduction mod `2 ^ 32` makes
the `uint32` width explicit), stops when it is zero, otherwise takes the
lowest-numbered set bit, attempts a non-blocking send on `signalChan`, and
on success clears that bit (the CAS retry loop succeeds at once in the
sequential model) and continues; a failed send stops the loop.  Each
successful send puts one more element into the bounded channel, which
bounds the number of iterations. -/
def checkSignalsLoop (st : SignalState) (gotSignals : Bool) : Bool × SignalState :=
  if h0 : st.receivedSignals % 2 ^ 32 = 0 then (gotSignals, st)
  else
    let val := st.receivedSignals % 2 ^ 32
    let num := trailingZeros32 val
    if st.signalChan.length < signalChanCap then
      checkSignalsLoop
        { st with
          signalChan := st.signalChan ++ [num]
          receivedSignals := andNot32 val (1 <<< num) } true
    else (gotSignals, st)
termination_by signalChanCap - st.signalChan.length
decreasing_by
  rename_i h
  simp only [List.length_append, List.length_cons, List.length_nil]
  omega

/-- `checkSignals`: drain the pending bitmask into `signalChan`, reporting
whether at least one signal was handed to the channel this call. -/
def checkSignals (st : SignalState) : Bool × SignalState :=
  checkSignalsLoop st false

/-- `signal_enable`: `none` models the fatal
`runtimePanicAt(..., "unsupported signal number")`. -/
def signal_enable (s : Nat) (st : SignalState) : Option SignalState :=
  if 32 ≤ s then none
  else some { st with
    hasSignals := true
    activeSignals := st.activeSignals ||| shlOne32 s
    kernelRouted := st.kernelRouted ||| shlOne32 s }

/-- `signal_ignore`: clear the interest bit (`activeSignals &^= 1 << s`);
fatal for `s ≥ 32`. -/
def signal_ignore (s : Nat) (st : SignalState) : Option SignalState :=
  if 32 ≤ s then none
  else some { st with
    activeSignals := andNot32 st.activeSignals (1 <<< s)
    kernelRouted := andNot32 st.kernelRouted (1 <<< s) }

/-- `signal_disable`: identical bookkeeping to `signal_ignore` on the Go
side; fatal for `s ≥ 32`. -/
def signal_disable (s : Nat) (st : SignalState) : Option SignalState :=
  if 32 ≤ s then none
  else some { st with
    activeSignals := andNot32 st.activeSignals (1 <<< s)
    kernelRouted := andNot32 st.kernelRouted (1 <<< s) }

/-- `signal_recv`: blocking receive from `signalChan` followed by a
`checkSignals` call; `none` models the case where the channel is empty and
the receive suspends the task. -/
def signal_recv (st : SignalState) : Option (Nat × SignalState) :=
  match st.signalChan with
  | [] => none
  | v :: rest => some (v, (checkSignals { st with signalChan := rest }).2)

/-- Kernel interactions performed by the wait primitives, recorded as a
trace.  The C helpers `tinygo_wfi_mask`, `tinygo_wfi_wait`,
`tinygo_wfi_sleep`, `tinygo_wfi_unmask` and `usleep` are extern
declarations whose bodies are not part of this repository; modelled from
the spec as opaque trace events. -/
inductive KernelOp where
  | mask (active : Nat)
  | wfiWait (active : Nat)
  | wfiSleep (active : Nat) (timeout : Nat)
  | usleepCall (usec : Nat)
  | unmask
deriving DecidableEq

/-- `waitForEvents`.  `incoming` is the signal number the kernel reports
from `tinygo_wfi_wait`; the overall `none` models the fatal
`runtimePanic("deadlocked: no event source")` path. -/
def waitForEvents (st : SignalState) (incoming : Nat) :
    Option (SignalState × List KernelOp) :=
  if st.hasSignals then
    let r1 := checkSignals st
    if r1.1 then some (r1.2, [KernelOp.mask st.activeSignals, KernelOp.unmask])
    else
      let st2 := tinygo_signal_handler incoming r1.2
      some ((checkSignals st2).2,
        [KernelOp.mask st.activeSignals, KernelOp.wfiWait st.activeSignals,
          KernelOp.unmask])
  else none

/-- The signal-aware darwin branch of `sleepTicks` (platform family A).
`usleepResult` is the return value of the `usleep` call and `arrivals` are
the signal numbers the kernel delivers to the handler while the process is
inside `usleep`. -/
def sleepTicksDarwinSignals (d : Nat) (usleepResult : Int) (arrivals : List Nat)
    (st : SignalState) : SignalState × List KernelOp :=
  let r1 := checkSignals st
  if r1.1 then (r1.2, [])
  else
    let st2 := arrivals.foldl (fun acc a => tinygo_signal_handler a acc) r1.2
    if usleepResult ≠ 0 then
      ((checkSignals st2).2, [KernelOp.usleepCall (d / 1000)])
    else (st2, [KernelOp.usleepCall (d / 1000)])

/-- `sleepTicks` on darwin: a plain `usleep` when no signal handlers are
registered, otherwise the check/sleep/conditional-recheck sequence. -/
def sleepTicksDarwin (d : Nat) (usleepResult : Int) (arrivals : List Nat)
    (st : SignalState) : SignalState × List KernelOp :=
  if st.hasSignals = false then (st, [KernelOp.usleepCall (d / 1000)])
  else sleepTicksDarwinSignals d usleepResult arrivals st

/-- Modelled from the spec: the family-A sleep exactly as the spec words
it — "after the sleep call returns (early or not), check again for pending
signals", i.e. the post-sleep `checkSignals` call runs unconditionally,
for any `usleep` result. -/
def sleepTicksDarwinAsSpecified (d : Nat) (usleepResult : Int)
    (arrivals : List Nat) (st : SignalState) : SignalState × List KernelOp :=
  if st.hasSignals = false then (st, [KernelOp.usleepCall (d / 1000)])
  else
    let r1 := checkSignals st
    if r1.1 then (r1.2, [])
    else
      let st2 := arrivals.foldl (fun acc a => tinygo_signal_handler a acc) r1.2
      ((checkSignals st2).2, [KernelOp.usleepCall (d / 1000)])

/-- The heap region: `heapStart`, `heapEnd`, `heapSize` and `heapMaxSize`
package-level variables. -/
structure HeapState where
  heapStart : Nat
  heapEnd : Nat
  heapSize : Nat
  heapMaxSize : Nat
deriving DecidableEq

/-- `growHeap` at pointer width `w`.  `heapSize * 4` is `uintptr`
multiplication and wraps at `2 ^ w`; `setHeapEnd` (defined by the
allocator outside this file; modelled from the spec as "update activeEnd
accordingly and notify the allocator") stores `heapStart + heapSize`,
again wrapping at `2 ^ w`. -/
def growHeap (w : Nat) (st : HeapState) : Bool × HeapState :=
  if st.heapSize = st.heapMaxSize then (false, st)
  else
    let hs0 := andNotW w (st.heapSize * 4 % 2 ^ w / 3) 4095
    let hs1 := if hs0 > st.heapMaxSize then st.heapMaxSize else hs0
    (true, { st with heapSize := hs1, heapEnd := (st.heapStart + hs1) % 2 ^ w })

/-- Iterate `growHeap` (discarding the returned flags). -/
def growSeq (w : Nat) : Nat → HeapState → HeapState
  | 0, st => st
  | n + 1, st => growSeq w n (growHeap w st).2

/-- The `mmap` loop of `preinit`.  `mmapRes size` is the kernel's answer
to a reservation request of `size` bytes: `none` models `MAP_FAILED`,
`some addr` a successful mapping at address `addr`.  The overall `none`
models the fatal `runtimePanic("cannot allocate heap memory")`. -/
def preinitLoop (w : Nat) (mmapRes : Nat → Option Nat) (heapSize cand : Nat) :
    Option HeapState :=
  match mmapRes cand with
  | some addr =>
    some { heapStart := addr
           heapEnd := (addr + heapSize) % 2 ^ w
           heapSize := heapSize
           heapMaxSize := cand }
  | none =>
    if cand / 2 < 4096 then none
    else preinitLoop w mmapRes heapSize (cand / 2)
termination_by cand
decreasing_by omega

/-- `preinit`: initial `heapSize` of 128 KiB and an initial `heapMaxSize`
candidate of 1 GiB. -/
def preinit (w : Nat) (mmapRes : Nat → Option Nat) : Option HeapState :=
  preinitLoop w mmapRes (128 * 1024) (1 * 1024 * 1024 * 1024)

/-- The `timespec` struct with its time64 layout: both fields 64-bit. -/
structure Timespec where
  tv_sec : Int
  tv_nsec : Int
deriving DecidableEq

/-- Which libc time call the runtime requests. -/
inductive ClockVariant where
  | time64
  | ordinary
deriving DecidableEq

/-- `clock_gettime` wrapper: dispatch between `__clock_gettime64` (when
`TargetBits == 32`) and the ordinary `clock_gettime` (otherwise).  The
libc calls themselves are extern; the model records which variant is
requested. -/
def clock_gettime (targetBits : Nat) : ClockVariant :=
  if targetBits = 32 then ClockVariant.time64 else ClockVariant.ordinary

/-- Go conversion `uint64(x)` of an `int64` value: the two's-complement
bit pattern read as an unsigned number. -/
def toUint64 (x : Int) : Nat := (x % 2 ^ 64).toNat

/-- `getTime`: the kernel fills in `ts` (an environment input here); the
result is `uint64(ts.tv_sec)*1000*1000*1000 + uint64(ts.tv_nsec)` in
`uint64` arithmetic, paired with the clock-call variant this target uses. -/
def getTime (targetBits : Nat) (ts : Timespec) : ClockVariant × Nat :=
  (clock_gettime targetBits,
    (toUint64 ts.tv_sec * 1000 * 1000 * 1000 + toUint64 ts.tv_nsec) % 2 ^ 64)

/-- The signal-subsystem operations callable from ordinary context. -/
inductive SigOp where
  | enable (s : Nat)
  | ignore (s : Nat)
  | disable (s : Nat)
  | handler (s : Nat)
  | drain
deriving DecidableEq

/-- Apply one signal operation; `none` propagates a fatal panic. -/
def applySigOp (st : SignalState) : SigOp → Option SignalState
  | SigOp.enable s => signal_enable s st
  | SigOp.ignore s => signal_ignore s st
  | SigOp.disable s => signal_disable s st
  | SigOp.handler s => some (tinygo_signal_handler s st)
  | SigOp.drain => some (checkSignals st).2

/-- Apply a sequence of signal operations. -/
def applySigOps (ops : List SigOp) (st : SignalState) : Option SignalState :=
  ops.foldl (fun acc op => acc.bind (fun s => applySigOp s op)) (some st)

theorem trailingZerosAux_testBit :
    ∀ (f n : Nat), n ≠ 0 → n < 2 ^ f →
      trailingZerosAux f n < f ∧ n.testBit (trailingZerosAux f n) = true := by
  intro f
  induction f with
  | zero =>
    intro n h0 hf
    exact absurd (Nat.lt_one_iff.mp hf) h0
  | succ f ih =>
    intro n h0 hf
    by_cases hodd : n % 2 = 1
    · constructor
      · simp [trailingZerosAux, hodd]
      · simp [trailingZerosAux, hodd, Nat.testBit_zero]
    · have hev : n % 2 = 0 := Nat.mod_two_eq_zero_or_one n |>.resolve_right hodd
      have hn2 : n / 2 ≠ 0 := by omega
      have hn2f : n / 2 < 2 ^ f := by
        have : (2 : Nat) ^ (f + 1) = 2 ^ f * 2 := by ring
        omega
      obtain ⟨h1, h2⟩ := ih (n / 2) hn2 hn2f
      constructor
      · simp only [trailingZerosAux, hodd, if_false]
        omega
      · simp only [trailingZerosAux, hodd, if_false]
        rw [Nat.testBit_add_one]
        exact h2

theorem trailingZerosAux_min :
    ∀ (f n j : Nat), j < trailingZerosAux f n → n.testBit j = false := by
  intro f
  induction f with
  | zero =>
    intro n j hj
    simp [trailingZerosAux] at hj
  | succ f ih =>
    intro n j hj
    by_cases hodd : n % 2 = 1
    · simp [trailingZerosAux, hodd] at hj
    · simp only [trailingZerosAux, hodd, if_false] at hj
      match j with
      | 0 => simp [Nat.testBit_zero, hodd]
      | j' + 1 =>
        rw [Nat.testBit_add_one]
        exact ih (n / 2) j' (by omega)

theorem trailingZerosAux_two_pow :
    ∀ (f s : Nat), s < f → trailingZerosAux f (2 ^ s) = s := by
  intro f
  induction f with
  | zero =>
    intro s hs
    omega
  | succ f ih =>
    intro s hs
    match s with
    | 0 => simp [trailingZerosAux]
    | s + 1 =>
      have hev : (2 : Nat) ^ (s + 1) % 2 = 0 := by
        rw [Nat.pow_succ]
        simp
      have hdiv : (2 : Nat) ^ (s + 1) / 2 = 2 ^ s := by
        rw [Nat.pow_succ]
        exact Nat.mul_div_cancel _ (by norm_num)
      simp only [trailingZerosAux, hev, hdiv, ih s (by omega)]
      norm_num

/-- Clearing bit `num` via `val &^ (1 << num)` affects exactly bit `num`. -/
theorem testBit_andNot32 {val num : Nat} (hval : val < 2 ^ 32) (hnum : num < 32)
    (j : Nat) :
    (andNot32 val (1 <<< num)).testBit j = (val.testBit j && decide (j ≠ num)) := by
  unfold andNot32
  have hpow : (1 <<< num) % 2 ^ 32 = 2 ^ num := by
    rw [Nat.shiftLeft_eq, Nat.one_mul]
    exact Nat.mod_eq_of_lt (Nat.pow_lt_pow_right (by norm_num) hnum)
  rw [hpow, Nat.testBit_and, Nat.testBit_xor, Nat.testBit_two_pow_sub_one,
    Nat.testBit_two_pow]
  by_cases hj32 : j < 32
  · by_cases hjn : j = num
    · subst hjn
      simp [hnum]
    · simp [hj32, hjn, Ne.symm hjn]
  · have hb : val.testBit j = false := by
      refine Nat.testBit_lt_two_pow (Nat.lt_of_lt_of_le hval ?_)
      exact Nat.pow_le_pow_right (by norm_num) (by omega)
    have hnumj : ¬num = j := by omega
    simp [hj32, hb, hnumj]

theorem andNot32_le {val b : Nat} : andNot32 val b ≤ val := Nat.and_le_left

theorem andNot32_two_pow_self {s : Nat} (hs : s < 32) :
    andNot32 (2 ^ s) (1 <<< s) = 0 := by
  apply Nat.eq_of_testBit_eq
  intro j
  rw [testBit_andNot32 (Nat.pow_lt_pow_right (by norm_num) hs) hs j]
  by_cases h : j = s <;> simp [h, Nat.testBit_two_pow, Ne.symm]

theorem checkSignalsLoop_zero (st : SignalState) (g : Bool)
    (h : st.receivedSignals % 2 ^ 32 = 0) : checkSignalsLoop st g = (g, st) := by
  unfold checkSignalsLoop
  rw [dif_pos h]

theorem checkSignalsLoop_stop (st : SignalState) (g : Bool)
    (h : ¬ st.signalChan.length < signalChanCap) :
    checkSignalsLoop st g = (g, st) := by
  unfold checkSignalsLoop
  by_cases h0 : st.receivedSignals % 2 ^ 32 = 0
  · rw [dif_pos h0]
  · rw [dif_neg h0]
    simp only [if_neg h]

theorem checkSignalsLoop_send (st : SignalState) (g : Bool)
    (h0 : ¬ st.receivedSignals % 2 ^ 32 = 0)
    (h : st.signalChan.length < signalChanCap) :
    checkSignalsLoop st g =
      checkSignalsLoop
        { st with
          signalChan := st.signalChan ++ [trailingZeros32 (st.receivedSignals % 2 ^ 32)]
          receivedSignals := andNot32 (st.receivedSignals % 2 ^ 32)
            (1 <<< trailingZeros32 (st.receivedSignals % 2 ^ 32)) } true := by
  conv_lhs => unfold checkSignalsLoop
  rw [dif_neg h0]
  simp only [if_pos h]

theorem checkSignalsLoop_preserves (st : SignalState) (g : Bool) :
    (checkSignalsLoop st g).2.hasSignals = st.hasSignals ∧
    (checkSignalsLoop st g).2.activeSignals = st.activeSignals ∧
    (checkSignalsLoop st g).2.kernelRouted = st.kernelRouted := by
  induction st, g using checkSignalsLoop.induct with
  | case1 st g h0 =>
    rw [checkSignalsLoop_zero st g h0]
    exact ⟨rfl, rfl, rfl⟩
  | case2 st g h0 val num h ih =>
    rw [checkSignalsLoop_send st g h0 h]
    exact ih
  | case3 st g h0 h =>
    rw [checkSignalsLoop_stop st g h]
    exact ⟨rfl, rfl, rfl⟩

theorem preinitLoop_eq (w : Nat) (f : Nat → Option Nat) (hs cand : Nat) :
    preinitLoop w f hs cand =
      match f cand with
      | some addr => some { heapStart := addr, heapEnd := (addr + hs) % 2 ^ w,
                            heapSize := hs, heapMaxSize := cand }
      | none =>
        if cand / 2 < 4096 then none
        else preinitLoop w f hs (cand / 2) := by
  conv_lhs => unfold preinitLoop

theorem andNotW_align {w a : Nat} (hw : 12 ≤ w) (ha : a < 2 ^ w) :
    andNotW w a 4095 = a / 4096 * 4096 := by
  have h4095 : (4095 : Nat) % 2 ^ w = 4095 :=
    Nat.mod_eq_of_lt (lt_of_lt_of_le (by norm_num)
      (Nat.pow_le_pow_right (by norm_num) hw))
  have hdiv : a / 4096 * 4096 = (a >>> 12) <<< 12 := by
    rw [Nat.shiftLeft_eq, Nat.shiftRight_eq_div_pow]
  apply Nat.eq_of_testBit_eq
  intro i
  rw [andNotW, h4095, hdiv]
  have h4095b : (4095 : Nat) = 2 ^ 12 - 1 := by norm_num
  rw [h4095b, Nat.testBit_and, Nat.testBit_xor, Nat.testBit_two_pow_sub_one,
    Nat.testBit_two_pow_sub_one, Nat.testBit_shiftLeft, Nat.testBit_shiftRight]
  by_cases h1 : i < 12
  · have h1w : i < w := by omega
    simp [h1, h1w, Nat.not_le_of_lt h1]
  · by_cases h2 : i < w
    · have h12 : 12 + (i - 12) = i := by omega
      simp [h1, h2, Nat.le_of_not_lt h1, h12]
    · have hb : a.testBit i = false :=
        Nat.testBit_lt_two_pow (lt_of_lt_of_le ha
          (Nat.pow_le_pow_right (by norm_num) (by omega)))
      have h12 : 12 + (i - 12) = i := by omega
      simp [h1, h2, hb, h12, Nat.le_of_not_lt h1]

theorem growHeap_eq (w : Nat) (st : HeapState) (hw : 12 ≤ w)
    (hne : st.heapSize ≠ st.heapMaxSize) (hov : st.heapSize * 4 < 2 ^ w) :
    growHeap w st =
      (true, { st with
        heapSize := min (st.heapSize * 4 / 3 / 4096 * 4096) st.heapMaxSize
        heapEnd := (st.heapStart +
          min (st.heapSize * 4 / 3 / 4096 * 4096) st.heapMaxSize) % 2 ^ w }) := by
  unfold growHeap
  rw [if_neg hne]
  have h1 : st.heapSize * 4 % 2 ^ w = st.heapSize * 4 := Nat.mod_eq_of_lt hov
  have h2 : andNotW w (st.heapSize * 4 / 3) 4095 = st.heapSize * 4 / 3 / 4096 * 4096 :=
    andNotW_align hw (lt_of_le_of_lt (Nat.div_le_self _ _) hov)
  simp only [h1, h2]
  by_cases h3 : st.heapSize * 4 / 3 / 4096 * 4096 > st.heapMaxSize
  · rw [Nat.min_eq_right (le_of_lt h3)]
    simp only [if_pos h3]
  · rw [Nat.min_eq_left (Nat.le_of_not_lt h3)]
    simp only [if_neg h3]

theorem growHeap_step (w : Nat) (st : HeapState) (hw : 32 ≤ w)
    (hsz : 4096 ∣ st.heapSize) (hle : st.heapSize ≤ st.heapMaxSize)
    (hmax : st.heapMaxSize ≤ 2 ^ 30) (hmaxd : 4096 ∣ st.heapMaxSize) :
    (growHeap w st).2.heapMaxSize = st.heapMaxSize ∧
    (growHeap w st).2.heapStart = st.heapStart ∧
    4096 ∣ (growHeap w st).2.heapSize ∧
    (growHeap w st).2.heapSize ≤ st.heapMaxSize ∧
    st.heapSize ≤ (growHeap w st).2.heapSize := by
  by_cases hne : st.heapSize = st.heapMaxSize
  · unfold growHeap
    rw [if_pos hne]
    exact ⟨rfl, rfl, hsz, hle, Nat.le_refl _⟩
  · have hov : st.heapSize * 4 < 2 ^ w := by
      have h1 : (2 : Nat) ^ 30 * 4 = 2 ^ 32 := by norm_num
      have h2 : (2 : Nat) ^ 32 ≤ 2 ^ w := Nat.pow_le_pow_right (by norm_num) hw
      omega
    rw [growHeap_eq w st (by omega) hne hov]
    have hmin : 4096 ∣ min (st.heapSize * 4 / 3 / 4096 * 4096) st.heapMaxSize := by
      rcases Nat.le_total (st.heapSize * 4 / 3 / 4096 * 4096) st.heapMaxSize with h | h
      · rw [Nat.min_eq_left h]
        exact ⟨st.heapSize * 4 / 3 / 4096, by ring⟩
      · rw [Nat.min_eq_right h]
        exact hmaxd
    have hsle : st.heapSize ≤ min (st.heapSize * 4 / 3 / 4096 * 4096) st.heapMaxSize := by
      rw [Nat.le_min]
      refine ⟨?_, hle⟩
      obtain ⟨m, hm⟩ := hsz
      rw [hm]
      have e1 : 4096 * m * 4 / 3 / 4096 = m * 4 / 3 := by
        rw [Nat.div_div_eq_div_mul]
        have h4 : 4096 * m * 4 = 4096 * (m * 4) := by ring
        have h5 : 3 * 4096 = 4096 * 3 := by ring
        rw [h4, h5, Nat.mul_div_mul_left _ _ (by norm_num)]
      rw [e1]
      have e2 : m ≤ m * 4 / 3 := by omega
      calc 4096 * m = m * 4096 := by ring
        _ ≤ m * 4 / 3 * 4096 := Nat.mul_le_mul_right _ e2
    exact ⟨rfl, rfl, hmin, Nat.min_le_right _ _, hsle⟩

theorem growSeq_add (w a b : Nat) (st : HeapState) :
    growSeq w (a + b) st = growSeq w b (growSeq w a st) := by
  induction a generalizing st with
  | zero =>
    rw [Nat.zero_add]
    rfl
  | succ a ih =>
    have h : a + 1 + b = (a + b) + 1 := by omega
    rw [h]
    show growSeq w (a + b) (growHeap w st).2 = _
    rw [ih]
    rfl

theorem growSeq_inv (w : Nat) (hw : 32 ≤ w) (n : Nat) :
    ∀ st : HeapState, 4096 ∣ st.heapSize → st.heapSize ≤ st.heapMaxSize →
      st.heapMaxSize ≤ 2 ^ 30 → 4096 ∣ st.heapMaxSize →
      (growSeq w n st).heapMaxSize = st.heapMaxSize ∧
      (growSeq w n st).heapStart = st.heapStart ∧
      4096 ∣ (growSeq w n st).heapSize ∧
      (growSeq w n st).heapSize ≤ st.heapMaxSize ∧
      st.heapSize ≤ (growSeq w n st).heapSize := by
  induction n with
  | zero =>
    intro st h1 h2 h3 h4
    exact ⟨rfl, rfl, h1, h2, Nat.le_refl _⟩
  | succ n ih =>
    intro st h1 h2 h3 h4
    obtain ⟨e1, e2, d1, d2, d3⟩ := growHeap_step w st hw h1 h2 h3 h4
    obtain ⟨f1, f2, f3, f4, f5⟩ := ih (growHeap w st).2 d1 (e1 ▸ d2) (e1 ▸ h3) (e1 ▸ h4)
    have hstep : growSeq w (n + 1) st = growSeq w n (growHeap w st).2 := rfl
    refine ⟨?_, ?_, ?_, ?_, ?_⟩
    · rw [hstep, f1, e1]
    · rw [hstep, f2, e2]
    · rw [hstep]; exact f3
    · rw [hstep]; exact le_trans f4 (le_of_eq e1)
    · rw [hstep]; exact le_trans d3 f5

/-- C1: for every value of the Pending Signal Bitmask (a `uint32`) and the
capacity-1 delivery queue, `checkSignals` picks the lowest-numbered set
bit, attempts a non-blocking send, on success clears exactly that bit and
continues, on failure (queue full) stops immediately with the bitmask
unchanged, and returns whether at least one signal was handed to the queue
this call; no pending bit is ever cleared without the signal having been
put into the queue. -/
theorem checkSignals_drains_lowest (st : SignalState)
    (hval : st.receivedSignals < 2 ^ 32) (hchan : st.signalChan.length ≤ 1) :
    (st.receivedSignals = 0 → checkSignals st = (false, st)) ∧
    (st.receivedSignals ≠ 0 → st.signalChan.length = 1 →
      checkSignals st = (false, st)) ∧
    (st.receivedSignals ≠ 0 → st.signalChan = [] →
      st.receivedSignals.testBit (trailingZeros32 st.receivedSignals) = true ∧
      (∀ j < trailingZeros32 st.receivedSignals,
        st.receivedSignals.testBit j = false) ∧
      checkSignals st =
        (true,
          { st with
            signalChan := [trailingZeros32 st.receivedSignals]
            receivedSignals :=
              andNot32 st.receivedSignals
                (1 <<< trailingZeros32 st.receivedSignals) }) ∧
      (∀ j, (andNot32 st.receivedSignals
          (1 <<< trailingZeros32 st.receivedSignals)).testBit j =
        (st.receivedSignals.testBit j &&
          decide (j ≠ trailingZeros32 st.receivedSignals)))) ∧
    ((checkSignals st).1 = true ↔ st.receivedSignals ≠ 0 ∧ st.signalChan = []) ∧
    (∀ j, st.receivedSignals.testBit j = true →
      (checkSignals st).2.receivedSignals.testBit j = false →
      j ∈ (checkSignals st).2.signalChan) := by
  have hmod : st.receivedSignals % 2 ^ 32 = st.receivedSignals :=
    Nat.mod_eq_of_lt hval
  have hzero : st.receivedSignals = 0 → checkSignals st = (false, st) := by
    intro h0
    exact checkSignalsLoop_zero st false (by rw [hmod, h0])
  have hfull : st.receivedSignals ≠ 0 → st.signalChan.length = 1 →
      checkSignals st = (false, st) := by
    intro h0 hlen
    refine checkSignalsLoop_stop st false ?_
    rw [hlen]
    norm_num [signalChanCap]
  have hchancases : st.signalChan = [] ∨ st.signalChan.length = 1 := by
    cases hc : st.signalChan with
    | nil => exact Or.inl rfl
    | cons x rest =>
      right
      rw [hc] at hchan
      simp only [List.length_cons] at hchan ⊢
      omega
  have hsend : st.receivedSignals ≠ 0 → st.signalChan = [] →
      checkSignals st =
        (true, { st with
          signalChan := [trailingZeros32 st.receivedSignals]
          receivedSignals :=
            andNot32 st.receivedSignals
              (1 <<< trailingZeros32 st.receivedSignals) }) := by
    intro h0 hc
    rw [checkSignals, checkSignalsLoop_send st false (by rw [hmod]; exact h0)
      (by rw [hc]; norm_num [signalChanCap])]
    rw [checkSignalsLoop_stop _ _ (by simp [hc, signalChanCap])]
    rw [hmod, hc]
    simp
  have hbits : st.receivedSignals ≠ 0 →
      trailingZeros32 st.receivedSignals < 32 ∧
      st.receivedSignals.testBit (trailingZeros32 st.receivedSignals) = true :=
    fun h0 => trailingZerosAux_testBit 32 st.receivedSignals h0 hval
  refine ⟨hzero, hfull, ?_, ?_, ?_⟩
  · intro h0 hc
    refine ⟨(hbits h0).2, ?_, hsend h0 hc, ?_⟩
    · intro j hj
      exact trailingZerosAux_min 32 st.receivedSignals j hj
    · intro j
      exact testBit_andNot32 hval (hbits h0).1 j
  · by_cases h0 : st.receivedSignals = 0
    · rw [hzero h0]
      simp [h0]
    · rcases hchancases with hc | hlen
      · rw [hsend h0 hc]
        simp [h0, hc]
      · rw [hfull h0 hlen]
        simp only [Bool.false_eq_true, false_iff, not_and]
        intro _ hc
        rw [hc] at hlen
        simp at hlen
  · intro j hj hcleared
    by_cases h0 : st.receivedSignals = 0
    · rw [h0] at hj
      simp at hj
    · rcases hchancases with hc | hlen
      · rw [hsend h0 hc] at hcleared ⊢
        simp only at hcleared ⊢
        rw [testBit_andNot32 hval (hbits h0).1 j] at hcleared
        have hjnum : j = trailingZeros32 st.receivedSignals := by
          by_contra hne
          simp [hj, hne] at hcleared
        simp [hjnum]
      · rw [hfull h0 hlen] at hcleared ⊢
        simp only at hcleared
        rw [hj] at hcleared
        simp at hcleared

/-- Witness for C1: pending bitmask 10 (bits 1 and 3 set), empty queue;
the drain delivers signal 1 (the lowest) and clears exactly bit 1. -/
theorem checkSignals_drains_lowest_witness :
    checkSignals ⟨10, [], false, 0, 0⟩ = (true, ⟨8, [1], false, 0, 0⟩) := by
  have h := ((checkSignals_drains_lowest ⟨10, [], false, 0, 0⟩ (by norm_num)
    (by simp)).2.2.1 (by norm_num) rfl).2.2.1
  rw [h]
  decide

/-- C4: invoking the handler twice with the same signal number `s` before
any drain leaves the pending bitmask identical to invoking it once; a
subsequent drain puts exactly one entry for `s` into the queue, and after
that entry is consumed, drain reports nothing pending. -/
theorem signal_coalescing (s : Nat) (hs : s < 32) (st : SignalState)
    (h0 : st.receivedSignals = 0) (hc : st.signalChan = []) :
    tinygo_signal_handler s (tinygo_signal_handler s st) =
      tinygo_signal_handler s st ∧
    checkSignals (tinygo_signal_handler s st) =
      (true, { st with signalChan := [s] }) ∧
    signal_recv { st with signalChan := [s] } = some (s, st) ∧
    (checkSignals st).1 = false := by
  have hm : shlOne32 s = 2 ^ s := by
    rw [shlOne32, Nat.shiftLeft_eq, Nat.one_mul]
    exact Nat.mod_eq_of_lt (Nat.pow_lt_pow_right (by norm_num) hs)
  have hpow32 : (2 : Nat) ^ s < 2 ^ 32 := Nat.pow_lt_pow_right (by norm_num) hs
  have hself : { st with signalChan := ([] : List Nat) } = st := by
    cases st
    simp only at hc
    simp [hc]
  have hzero : checkSignals st = (false, st) :=
    checkSignalsLoop_zero st false (by rw [h0]; rfl)

  refine ⟨?_, ?_, ?_, by rw [hzero]⟩
  · have : (st.receivedSignals ||| shlOne32 s) ||| shlOne32 s =
        st.receivedSignals ||| shlOne32 s := by
      rw [Nat.or_assoc, Nat.or_self]
    simp [tinygo_signal_handler, this]
  · have hrecv : (tinygo_signal_handler s st).receivedSignals = 2 ^ s := by
      rw [tinygo_signal_handler]
      simp only
      rw [h0, hm, Nat.zero_or]
    have hch : (tinygo_signal_handler s st).signalChan = [] := hc
    rw [checkSignals, checkSignalsLoop_send _ false
      (by rw [hrecv, Nat.mod_eq_of_lt hpow32]; positivity)
      (by rw [hch]; norm_num [signalChanCap])]
    rw [checkSignalsLoop_stop _ _ (by simp [hch, signalChanCap])]
    rw [hrecv, Nat.mod_eq_of_lt hpow32, hch]
    have htz : trailingZeros32 (2 ^ s) = s := trailingZerosAux_two_pow 32 s hs
    rw [htz, andNot32_two_pow_self hs]
    rw [tinygo_signal_handler]
    simp [h0]
  · rw [signal_recv]
    simp only
    rw [hself, hzero]

/-- Witness for C4 at signal number 5 from the initial state. -/
theorem signal_coalescing_witness :
    tinygo_signal_handler 5 (tinygo_signal_handler 5 initSignalState) =
      tinygo_signal_handler 5 initSignalState ∧
    checkSignals (tinygo_signal_handler 5 initSignalState) =
      (true, { initSignalState with signalChan := [5] }) ∧
    signal_recv { initSignalState with signalChan := [5] } =
      some (5, initSignalState) ∧
    (checkSignals initSignalState).1 = false :=
  signal_coalescing 5 (by norm_num) initSignalState rfl rfl

/-- C6: `signal_enable`, `signal_ignore` and `signal_disable` fail fatally
exactly for signal numbers 32 and above; `signal_enable 31` succeeds,
setting bit 31 in the interest set and asking the kernel to route signal
31 to the handler. -/
theorem signal_range_spec :
    (∀ s st, signal_enable s st = none ↔ 32 ≤ s) ∧
    (∀ s st, signal_ignore s st = none ↔ 32 ≤ s) ∧
    (∀ s st, signal_disable s st = none ↔ 32 ≤ s) ∧
    (∀ st, signal_enable 31 st =
      some { st with
        hasSignals := true
        activeSignals := st.activeSignals ||| 2 ^ 31
        kernelRouted := st.kernelRouted ||| 2 ^ 31 }) ∧
    (∀ a : Nat, (a ||| 2 ^ 31).testBit 31 = true) := by
  refine ⟨?_, ?_, ?_, ?_, ?_⟩
  · intro s st
    by_cases h : 32 ≤ s <;> simp [signal_enable, h]
  · intro s st
    by_cases h : 32 ≤ s <;> simp [signal_ignore, h]
  · intro s st
    by_cases h : 32 ≤ s <;> simp [signal_disable, h]
  · intro st
    have h31 : shlOne32 31 = 2 ^ 31 := by decide
    simp [signal_enable, h31]
  · intro a
    rw [Nat.testBit_or]
    refine Bool.or_eq_true _ _ |>.mpr (Or.inr ?_)
    decide

theorem applySigOps_foldl_none (ops : List SigOp) :
    ops.foldl (fun acc op => acc.bind (fun s => applySigOp s op)) none = none := by
  induction ops with
  | nil => rfl
  | cons op rest ih => simp [List.foldl_cons, ih]

theorem applySigOps_cons (op : SigOp) (ops : List SigOp) (st : SignalState) :
    applySigOps (op :: ops) st =
      (applySigOp st op).bind (fun st2 => applySigOps ops st2) := by
  rw [applySigOps, List.foldl_cons]
  cases h : applySigOp st op with
  | none => simp [h, applySigOps_foldl_none]
  | some st2 => simp [h, applySigOps]

theorem applySigOp_hasSignals (st : SignalState) (op : SigOp) (st2 : SignalState)
    (h : applySigOp st op = some st2) (hst : st.hasSignals = true) :
    st2.hasSignals = true := by
  cases op with
  | enable s =>
    by_cases hs : 32 ≤ s
    · simp [applySigOp, signal_enable, hs] at h
    · simp [applySigOp, signal_enable, hs] at h
      rw [← h]
  | ignore s =>
    by_cases hs : 32 ≤ s
    · simp [applySigOp, signal_ignore, hs] at h
    · simp [applySigOp, signal_ignore, hs] at h
      rw [← h]
      exact hst
  | disable s =>
    by_cases hs : 32 ≤ s
    · simp [applySigOp, signal_disable, hs] at h
    · simp [applySigOp, signal_disable, hs] at h
      rw [← h]
      exact hst
  | handler s =>
    simp [applySigOp] at h
    rw [← h]
    exact hst
  | drain =>
    simp [applySigOp] at h
    rw [← h, checkSignals]
    rw [(checkSignalsLoop_preserves st false).1]
    exact hst

/-- C10: the `hasSignals` flag is monotone — set by the first successful
enable and never cleared by any later operation, so even after every
enabled signal is ignored or disabled (empty interest set), `sleepTicks`
still takes the signal-aware path and `waitForEvents` does not report the
fatal no-event-source deadlock. -/
theorem hasSignals_monotone :
    (∀ s st st2, signal_enable s st = some st2 → st2.hasSignals = true) ∧
    (∀ ops st st2, applySigOps ops st = some st2 →
      st.hasSignals = true → st2.hasSignals = true) ∧
    (applySigOps [SigOp.enable 5, SigOp.disable 5] initSignalState =
      some { initSignalState with hasSignals := true }) ∧
    (∀ st i, st.hasSignals = true → waitForEvents st i ≠ none) ∧
    (∀ d r a st, st.hasSignals = true →
      sleepTicksDarwin d r a st = sleepTicksDarwinSignals d r a st) := by
  refine ⟨?_, ?_, ?_, ?_, ?_⟩
  · intro s st st2 h
    by_cases hs : 32 ≤ s
    · simp [signal_enable, hs] at h
    · simp [signal_enable, hs] at h
      rw [← h]
  · intro ops
    induction ops with
    | nil =>
      intro st st2 h hst
      simp [applySigOps] at h
      rw [← h]
      exact hst
    | cons op rest ih =>
      intro st st2 h hst
      rw [applySigOps_cons] at h
      cases hop : applySigOp st op with
      | none => rw [hop] at h; simp at h
      | some stm =>
        rw [hop] at h
        simp only [Option.some_bind] at h
        exact ih stm st2 h (applySigOp_hasSignals st op stm hop hst)
  · decide
  · intro st i h
    rw [waitForEvents]
    rw [h]
    by_cases hr : (checkSignals st).1 <;> simp [hr]
  · intro d r a st h
    rw [sleepTicksDarwin, h]
    simp

/-- Witness for C10: a state with `hasSignals` set but an empty interest
set still takes the signal-aware sleep path and does not deadlock-panic. -/
theorem hasSignals_monotone_witness :
    ((⟨0, [], true, 0, 0⟩ : SignalState).hasSignals = true) ∧
    sleepTicksDarwin 1000 0 [] ⟨0, [], true, 0, 0⟩ =
      sleepTicksDarwinSignals 1000 0 [] ⟨0, [], true, 0, 0⟩ ∧
    waitForEvents ⟨0, [], true, 0, 0⟩ 2 ≠ none :=
  ⟨rfl, hasSignals_monotone.2.2.2.2 1000 0 [] ⟨0, [], true, 0, 0⟩ rfl,
    hasSignals_monotone.2.2.2.1 ⟨0, [], true, 0, 0⟩ 2 rfl⟩

/-- C5: `waitForEvents` fails fatally exactly when no signal interest was
ever registered; otherwise it masks the active set, returns after
unmasking if a signal is already pending, else blocks in the kernel wait,
dispatches the woken signal through the handler entry point, drains, and
unmasks. -/
theorem waitForEvents_spec (st : SignalState) (incoming : Nat) :
    (st.hasSignals = false → waitForEvents st incoming = none) ∧
    (st.hasSignals = true → (checkSignals st).1 = true →
      waitForEvents st incoming =
        some ((checkSignals st).2,
          [KernelOp.mask st.activeSignals, KernelOp.unmask])) ∧
    (st.hasSignals = true → (checkSignals st).1 = false →
      waitForEvents st incoming =
        some ((checkSignals (tinygo_signal_handler incoming
            (checkSignals st).2)).2,
          [KernelOp.mask st.activeSignals, KernelOp.wfiWait st.activeSignals,
            KernelOp.unmask])) := by
  refine ⟨?_, ?_, ?_⟩
  · intro h1
    rw [waitForEvents, h1]
    rfl
  · intro h1 h2
    rw [waitForEvents, h1]
    simp [h2]
  · intro h1 h2
    rw [waitForEvents, h1]
    simp [h2]

/-- Witness for C5: `hasSignals` set, bit 2 pending, empty queue — the
wait masks, finds the pending signal during the drain and returns after
unmasking without entering the kernel wait. -/
theorem waitForEvents_spec_witness :
    ((⟨4, [], true, 0, 0⟩ : SignalState).hasSignals = true) ∧
    ((checkSignals ⟨4, [], true, 0, 0⟩).1 = true) ∧
    waitForEvents ⟨4, [], true, 0, 0⟩ 7 =
      some ((checkSignals ⟨4, [], true, 0, 0⟩).2,
        [KernelOp.mask 0, KernelOp.unmask]) := by
  have hcs : checkSignals (⟨4, [], true, 0, 0⟩ : SignalState) =
      (true, ⟨0, [2], true, 0, 0⟩) := by
    rw [checkSignals, checkSignalsLoop_send _ _ (by decide) (by decide),
      checkSignalsLoop_stop _ _ (by decide)]
    decide
  exact ⟨rfl, by rw [hcs],
    (waitForEvents_spec ⟨4, [], true, 0, 0⟩ 7).2.1 rfl (by rw [hcs])⟩

/-- C7 (amended): with signal interest registered, the darwin sleep checks
for already-pending signals first and returns immediately if any is found;
otherwise it performs the kernel timed sleep, and it checks again for
pending signals only when the sleep call returns a non-zero result (early
or abnormal return) — a sleep that runs the full duration (result 0) is
not followed by another check in this call. -/
theorem sleepTicks_darwin_spec (d : Nat) (r : Int) (arrivals : List Nat)
    (st : SignalState) (hsig : st.hasSignals = true) :
    ((checkSignals st).1 = true →
      sleepTicksDarwin d r arrivals st = ((checkSignals st).2, [])) ∧
    ((checkSignals st).1 = false → r ≠ 0 →
      sleepTicksDarwin d r arrivals st =
        ((checkSignals (arrivals.foldl (fun acc a => tinygo_signal_handler a acc)
            (checkSignals st).2)).2,
          [KernelOp.usleepCall (d / 1000)])) ∧
    ((checkSignals st).1 = false → r = 0 →
      sleepTicksDarwin d r arrivals st =
        (arrivals.foldl (fun acc a => tinygo_signal_handler a acc)
            (checkSignals st).2,
          [KernelOp.usleepCall (d / 1000)])) := by
  refine ⟨?_, ?_, ?_⟩
  · intro h1
    rw [sleepTicksDarwin, hsig]
    simp [sleepTicksDarwinSignals, h1]
  · intro h1 h2
    rw [sleepTicksDarwin, hsig]
    simp [sleepTicksDarwinSignals, h1, h2]
  · intro h1 h2
    rw [sleepTicksDarwin, hsig]
    simp [sleepTicksDarwinSignals, h1, h2]

/-- Witness for C7 (amended), full-duration case: no signal pending
beforehand, usleep returns 0, signal 3 arrives during the sleep; the call
ends with the handler effect applied but no further drain. -/
theorem sleepTicks_darwin_spec_witness :
    ((⟨0, [], true, 8, 8⟩ : SignalState).hasSignals = true) ∧
    ((checkSignals ⟨0, [], true, 8, 8⟩).1 = false) ∧
    sleepTicksDarwin 5000000 0 [3] ⟨0, [], true, 8, 8⟩ =
      ([3].foldl (fun acc a => tinygo_signal_handler a acc)
          (checkSignals ⟨0, [], true, 8, 8⟩).2,
        [KernelOp.usleepCall (5000000 / 1000)]) := by
  have h1 : checkSignals (⟨0, [], true, 8, 8⟩ : SignalState) =
      (false, ⟨0, [], true, 8, 8⟩) :=
    checkSignalsLoop_zero _ _ (by decide)
  exact ⟨rfl, by rw [h1],
    (sleepTicks_darwin_spec 5000000 0 [3] ⟨0, [], true, 8, 8⟩ rfl).2.2
      (by rw [h1]) rfl⟩

/-- C7 counterexample: at this concrete input (nothing pending, usleep
runs the full duration and returns 0, signal 3 delivered to the handler
during the sleep) the code performs no post-sleep drain — the pending bit
for 3 stays set and the queue stays empty — whereas the sleep as the spec
words it ("check again, early or not") would have drained signal 3 into
the queue. -/
theorem sleepTicks_recheck_cex :
    sleepTicksDarwin 5000000 0 [3] ⟨0, [], true, 8, 8⟩ ≠
      sleepTicksDarwinAsSpecified 5000000 0 [3] ⟨0, [], true, 8, 8⟩ ∧
    (sleepTicksDarwin 5000000 0 [3] ⟨0, [], true, 8, 8⟩).1.receivedSignals = 8 ∧
    (sleepTicksDarwin 5000000 0 [3] ⟨0, [], true, 8, 8⟩).1.signalChan = [] ∧
    (sleepTicksDarwinAsSpecified 5000000 0 [3]
      ⟨0, [], true, 8, 8⟩).1.receivedSignals = 0 ∧
    (sleepTicksDarwinAsSpecified 5000000 0 [3]
      ⟨0, [], true, 8, 8⟩).1.signalChan = [3] := by
  have h1 : checkSignals (⟨0, [], true, 8, 8⟩ : SignalState) =
      (false, ⟨0, [], true, 8, 8⟩) :=
    checkSignalsLoop_zero _ _ (by decide)
  have hfold : tinygo_signal_handler 3 (⟨0, [], true, 8, 8⟩ : SignalState) =
      ⟨8, [], true, 8, 8⟩ := by decide
  have h2 : checkSignals (⟨8, [], true, 8, 8⟩ : SignalState) =
      (true, ⟨0, [3], true, 8, 8⟩) := by
    rw [checkSignals, checkSignalsLoop_send _ _ (by decide) (by decide),
      checkSignalsLoop_stop _ _ (by decide)]
    decide
  have hc : sleepTicksDarwin 5000000 0 [3] ⟨0, [], true, 8, 8⟩ =
      (⟨8, [], true, 8, 8⟩, [KernelOp.usleepCall 5000]) := by
    rw [sleepTicksDarwin]
    simp only [sleepTicksDarwinSignals, h1]
    norm_num
    rw [hfold]
  have hspec : sleepTicksDarwinAsSpecified 5000000 0 [3] ⟨0, [], true, 8, 8⟩ =
      (⟨0, [3], true, 8, 8⟩, [KernelOp.usleepCall 5000]) := by
    rw [sleepTicksDarwinAsSpecified]
    simp only [h1]
    norm_num
    rw [hfold, h2]
  rw [hc, hspec]
  refine ⟨by decide, rfl, rfl, rfl, rfl⟩

/-- C9: 32-bit targets request the 64-bit-safe `__clock_gettime64`, 64-bit
targets the ordinary `clock_gettime`; in both cases the adapter returns
the reading as `tv_sec * 10^9 + tv_nsec` nanoseconds from the 64-bit
timespec fields (exactly, whenever that value fits in `uint64`). -/
theorem clock_gettime_spec :
    (clock_gettime 32 = ClockVariant.time64) ∧
    (∀ b, b ≠ 32 → clock_gettime b = ClockVariant.ordinary) ∧
    (∀ b ts, (getTime b ts).1 = clock_gettime b) ∧
    (∀ b (ts : Timespec), 0 ≤ ts.tv_sec → 0 ≤ ts.tv_nsec →
      ts.tv_sec * 1000000000 + ts.tv_nsec < 2 ^ 64 →
      ((getTime b ts).2 : Int) = ts.tv_sec * 1000000000 + ts.tv_nsec) := by
  refine ⟨rfl, ?_, ?_, ?_⟩
  · intro b hb
    simp [clock_gettime, hb]
  · intro b ts
    rfl
  · intro b ts h1 h2 h3
    have hpow : (2 : Int) ^ 64 = 18446744073709551616 := by norm_num
    rw [hpow] at h3
    have hlt1 : ts.tv_sec < 2 ^ 64 := by
      rw [hpow]
      omega
    have hlt2 : ts.tv_nsec < 2 ^ 64 := by
      rw [hpow]
      omega
    have e1 : ts.tv_sec % 2 ^ 64 = ts.tv_sec := Int.emod_eq_of_lt h1 hlt1
    have e2 : ts.tv_nsec % 2 ^ 64 = ts.tv_nsec := Int.emod_eq_of_lt h2 hlt2
    show (((toUint64 ts.tv_sec * 1000 * 1000 * 1000 + toUint64 ts.tv_nsec) %
        2 ^ 64 : Nat) : Int) = _
    rw [toUint64, toUint64, e1, e2]
    have hn : ts.tv_sec.toNat * 1000 * 1000 * 1000 + ts.tv_nsec.toNat < 2 ^ 64 := by
      have hp : (2 : Nat) ^ 64 = 18446744073709551616 := by norm_num
      rw [hp]
      omega
    rw [Nat.mod_eq_of_lt hn]
    push_cast
    omega

/-- Witness for C9 at a concrete timespec on a 64-bit target. -/
theorem clock_gettime_spec_witness :
    (0 ≤ (⟨5, 7⟩ : Timespec).tv_sec) ∧ (0 ≤ (⟨5, 7⟩ : Timespec).tv_nsec) ∧
    ((⟨5, 7⟩ : Timespec).tv_sec * 1000000000 + (⟨5, 7⟩ : Timespec).tv_nsec <
      2 ^ 64) ∧
    (((getTime 64 ⟨5, 7⟩).2 : Int) =
      (⟨5, 7⟩ : Timespec).tv_sec * 1000000000 + (⟨5, 7⟩ : Timespec).tv_nsec) ∧
    ((64 : Nat) ≠ 32) ∧ clock_gettime 64 = ClockVariant.ordinary :=
  ⟨by norm_num, by norm_num, by norm_num,
    clock_gettime_spec.2.2.2 64 ⟨5, 7⟩ (by norm_num) (by norm_num) (by norm_num),
    by norm_num, clock_gettime_spec.2.1 64 (by norm_num)⟩

theorem heapSize_le_align {hs : Nat} (h : 4096 ∣ hs) :
    hs ≤ hs * 4 / 3 / 4096 * 4096 := by
  obtain ⟨m, hm⟩ := h
  rw [hm]
  have e1 : 4096 * m * 4 / 3 / 4096 = m * 4 / 3 := by
    rw [Nat.div_div_eq_div_mul]
    have h4 : 4096 * m * 4 = 4096 * (m * 4) := by ring
    have h5 : 3 * 4096 = 4096 * 3 := by ring
    rw [h4, h5, Nat.mul_div_mul_left _ _ (by norm_num)]
  rw [e1]
  have e2 : m ≤ m * 4 / 3 := by omega
  calc 4096 * m = m * 4096 := by ring
    _ ≤ m * 4 / 3 * 4096 := Nat.mul_le_mul_right _ e2

/-- C3: when activeSize equals maxSize, `growHeap` returns failure and
leaves the whole heap-region state unchanged; otherwise it returns success
and sets activeSize to the old size grown by a third and rounded down to a
4 KiB page boundary, capped at maxSize, with activeEnd updated to match;
the grow is never partially applied (the result is exactly one of the two
states). -/
theorem growHeap_spec (w : Nat) (st : HeapState) (hw : 12 ≤ w)
    (hov : st.heapSize * 4 < 2 ^ w)
    (hendov : st.heapStart + st.heapMaxSize < 2 ^ w) :
    (st.heapSize = st.heapMaxSize → growHeap w st = (false, st)) ∧
    (st.heapSize ≠ st.heapMaxSize →
      (growHeap w st = (true, { st with
        heapSize := min (st.heapSize * 4 / 3 / 4096 * 4096) st.heapMaxSize
        heapEnd := st.heapStart +
          min (st.heapSize * 4 / 3 / 4096 * 4096) st.heapMaxSize })) ∧
      (4096 ∣ st.heapMaxSize →
        4096 ∣ min (st.heapSize * 4 / 3 / 4096 * 4096) st.heapMaxSize)) ∧
    (min (st.heapSize * 4 / 3 / 4096 * 4096) st.heapMaxSize ≤ st.heapMaxSize) ∧
    (4096 ∣ st.heapSize → st.heapSize ≤ st.heapMaxSize →
      st.heapSize ≤ min (st.heapSize * 4 / 3 / 4096 * 4096) st.heapMaxSize) := by
  refine ⟨?_, ?_, Nat.min_le_right _ _, ?_⟩
  · intro h
    unfold growHeap
    rw [if_pos h]
  · intro hne
    constructor
    · have hmin : min (st.heapSize * 4 / 3 / 4096 * 4096) st.heapMaxSize ≤
          st.heapMaxSize := Nat.min_le_right _ _
      have hmod : (st.heapStart +
          min (st.heapSize * 4 / 3 / 4096 * 4096) st.heapMaxSize) % 2 ^ w =
          st.heapStart +
            min (st.heapSize * 4 / 3 / 4096 * 4096) st.heapMaxSize :=
        Nat.mod_eq_of_lt (by omega)
      rw [growHeap_eq w st hw hne hov, hmod]
    · intro hmaxd
      rcases Nat.le_total (st.heapSize * 4 / 3 / 4096 * 4096) st.heapMaxSize
        with h | h
      · rw [Nat.min_eq_left h]
        exact ⟨st.heapSize * 4 / 3 / 4096, by ring⟩
      · rw [Nat.min_eq_right h]
        exact hmaxd
  · intro hd hle
    rw [Nat.le_min]
    exact ⟨heapSize_le_align hd, hle⟩

/-- Witness for C3: growing a fresh 1 GiB region from the initial 128 KiB
active size yields 172032 bytes (131072 * 4 / 3 rounded down to a page). -/
theorem growHeap_spec_witness :
    ((131072 : Nat) * 4 < 2 ^ 64) ∧
    ((4096 : Nat) + 1073741824 < 2 ^ 64) ∧
    ((131072 : Nat) ≠ 1073741824) ∧
    growHeap 64 ⟨4096, 135168, 131072, 1073741824⟩ =
      (true, ⟨4096, 176128, 172032, 1073741824⟩) := by
  refine ⟨by norm_num, by norm_num, by norm_num, ?_⟩
  have h := ((growHeap_spec 64 ⟨4096, 135168, 131072, 1073741824⟩ (by norm_num)
    (by norm_num) (by norm_num)).2.1 (by norm_num)).1
  rw [h]
  decide

/-- C2 (amended): after `preinit` halves the initial 1 GiB candidate at
most 13 times — i.e. for every resulting maxSize that is still at least
the 128 KiB initial activeSize — every sequence of `growHeap` calls keeps
activeSize a multiple of the 4 KiB page size, never above maxSize, and
monotonically non-decreasing in the number of calls. -/
theorem growSeq_invariants (w k n m : Nat) (hw : 32 ≤ w) (hk : k ≤ 13)
    (st : HeapState) (hsz : st.heapSize = 131072)
    (hmx : st.heapMaxSize = 2 ^ (30 - k)) (hmn : m ≤ n) :
    4096 ∣ (growSeq w n st).heapSize ∧
    (growSeq w n st).heapSize ≤ st.heapMaxSize ∧
    (growSeq w m st).heapSize ≤ (growSeq w n st).heapSize := by
  have h1 : 4096 ∣ st.heapSize := by
    rw [hsz]
    norm_num
  have h2 : st.heapSize ≤ st.heapMaxSize := by
    rw [hsz, hmx]
    calc (131072 : Nat) = 2 ^ 17 := by norm_num
      _ ≤ 2 ^ (30 - k) := Nat.pow_le_pow_right (by norm_num) (by omega)
  have h3 : st.heapMaxSize ≤ 2 ^ 30 := by
    rw [hmx]
    exact Nat.pow_le_pow_right (by norm_num) (by omega)
  have h4 : 4096 ∣ st.heapMaxSize := by
    rw [hmx]
    have h12 : (4096 : Nat) = 2 ^ 12 := by norm_num
    rw [h12]
    exact pow_dvd_pow 2 (by omega)
  obtain ⟨g1, g2, g3, g4, g5⟩ := growSeq_inv w hw n st h1 h2 h3 h4
  refine ⟨g3, g4, ?_⟩
  obtain ⟨f1, f2, f3, f4, f5⟩ := growSeq_inv w hw m st h1 h2 h3 h4
  have hadd : growSeq w n st = growSeq w (n - m) (growSeq w m st) := by
    rw [← growSeq_add]
    congr 1
    omega
  rw [hadd]
  have hrest := growSeq_inv w hw (n - m) (growSeq w m st) f3
    (by rw [f1]; exact f4) (by rw [f1]; exact h3) (by rw [f1]; exact h4)
  exact hrest.2.2.2.2

/-- Witness for C2 (amended) with the full 1 GiB maxSize, comparing the
first and second grow. -/
theorem growSeq_invariants_witness :
    ((32 : Nat) ≤ 64) ∧ ((0 : Nat) ≤ 13) ∧
    ((⟨4096, 135168, 131072, 1073741824⟩ : HeapState).heapSize = 131072) ∧
    ((⟨4096, 135168, 131072, 1073741824⟩ : HeapState).heapMaxSize =
      2 ^ (30 - 0)) ∧ ((1 : Nat) ≤ 2) ∧
    (4096 ∣ (growSeq 64 2 ⟨4096, 135168, 131072, 1073741824⟩).heapSize ∧
      (growSeq 64 2 ⟨4096, 135168, 131072, 1073741824⟩).heapSize ≤
        (⟨4096, 135168, 131072, 1073741824⟩ : HeapState).heapMaxSize ∧
      (growSeq 64 1 ⟨4096, 135168, 131072, 1073741824⟩).heapSize ≤
        (growSeq 64 2 ⟨4096, 135168, 131072, 1073741824⟩).heapSize) :=
  ⟨by norm_num, by norm_num, rfl, by norm_num, by norm_num,
    growSeq_invariants 64 0 2 1 (by norm_num) (by norm_num)
      ⟨4096, 135168, 131072, 1073741824⟩ rfl (by norm_num) (by norm_num)⟩

set_option maxRecDepth 4096 in
/-- C2 counterexample: when mmap refuses every candidate above 64 KiB the
halving loop legitimately produces maxSize = 65536, but the initial
activeSize is the fixed 128 KiB, so right after initialization activeSize
already exceeds maxSize, and the first grow() call *shrinks* activeSize
(monotonicity and the bound both fail as stated). -/
theorem growSeq_invariants_cex :
    preinit 64 (fun c => if c ≤ 65536 then some 4096 else none) =
      some ⟨4096, 135168, 131072, 65536⟩ ∧
    ¬ ((⟨4096, 135168, 131072, 65536⟩ : HeapState).heapSize ≤
        (⟨4096, 135168, 131072, 65536⟩ : HeapState).heapMaxSize) ∧
    (growSeq 64 1 ⟨4096, 135168, 131072, 65536⟩).heapSize <
      (growSeq 64 0 ⟨4096, 135168, 131072, 65536⟩).heapSize := by
  refine ⟨?_, by decide, by decide⟩
  rw [preinit]
  norm_num [preinitLoop_eq]

/-- C8: `preinit` starts with a 1 GiB candidate and 128 KiB activeSize; on
success it sets start to the mapped address and activeEnd to start plus
activeSize; on reservation failure it halves the candidate and retries,
failing fatally once the halved candidate drops below the 4 KiB floor; and
the region is never moved afterwards (`growHeap` keeps heapStart, and no
unmap operation exists). -/
theorem preinit_spec (w : Nat) (mmapRes : Nat → Option Nat) :
    (∀ addr, mmapRes (2 ^ 30) = some addr →
      preinit w mmapRes =
        some { heapStart := addr, heapEnd := (addr + 131072) % 2 ^ w,
               heapSize := 131072, heapMaxSize := 2 ^ 30 }) ∧
    (∀ hs cand addr, mmapRes cand = some addr →
      preinitLoop w mmapRes hs cand =
        some { heapStart := addr, heapEnd := (addr + hs) % 2 ^ w,
               heapSize := hs, heapMaxSize := cand }) ∧
    (∀ hs cand, mmapRes cand = none → 4096 ≤ cand / 2 →
      preinitLoop w mmapRes hs cand = preinitLoop w mmapRes hs (cand / 2)) ∧
    (∀ hs cand, mmapRes cand = none → cand / 2 < 4096 →
      preinitLoop w mmapRes hs cand = none) ∧
    (∀ st, (growHeap w st).2.heapStart = st.heapStart) := by
  refine ⟨?_, ?_, ?_, ?_, ?_⟩
  · intro addr h
    rw [preinit]
    have h30 : (1 * 1024 * 1024 * 1024 : Nat) = 2 ^ 30 := by norm_num
    rw [h30, preinitLoop_eq, h]
  · intro hs cand addr h
    rw [preinitLoop_eq, h]
  · intro hs cand h hge
    rw [preinitLoop_eq, h]
    simp only
    rw [if_neg (by omega)]
  · intro hs cand h hlt
    rw [preinitLoop_eq, h]
    simp only
    rw [if_pos hlt]
  · intro st
    by_cases h : st.heapSize = st.heapMaxSize
    · simp [growHeap, h]
    · simp [growHeap, h]

/-- Witness for C8: an address space that refuses mappings above 512 MiB
makes the loop halve the 1 GiB candidate once and retry. -/
theorem preinit_spec_witness :
    ((fun c => if c ≤ 536870912 then some 8192 else none : Nat → Option Nat)
      1073741824 = none) ∧
    ((4096 : Nat) ≤ 1073741824 / 2) ∧
    preinitLoop 64 (fun c => if c ≤ 536870912 then some 8192 else none)
        131072 1073741824 =
      preinitLoop 64 (fun c => if c ≤ 536870912 then some 8192 else none)
        131072 (1073741824 / 2) :=
  ⟨by norm_num, by norm_num,
    (preinit_spec 64 (fun c => if c ≤ 536870912 then some 8192 else none)).2.2.1
      131072 1073741824 (by norm_num) (by norm_num)⟩

end TinyGoUnix
